import Mathlib

/-!
Verification of the client-side synchronization layer of the-bible-ai
(web client `src/web/src/App.jsx`; the React-Native variants
`src/unnamed/part_003` and `src/mobile/App.js` carry the same cache,
session and quota logic).

The embedding models JavaScript strings as `String`, with `""` standing
for every falsy string value (`undefined`, `null`, `""`): the source only
ever tests these fields for truthiness.  `localStorage` / `AsyncStorage`
is modelled as a key-value map `KV`; per the design's disjoint-namespace
rule each component's keys are modelled in their own store.  Fallible
network calls are modelled by passing the outcome (parsed body, or
failure) as an explicit argument at the suspension point where the
response arrives.
-/

namespace TheBibleAI

/-! ## Key-value storage (localStorage / AsyncStorage) -/

def KV (α : Type) : Type := String → Option α

def KV.empty {α : Type} : KV α := fun _ => none

def KV.getItem {α : Type} (s : KV α) (k : String) : Option α := s k

def KV.setItem {α : Type} (s : KV α) (k : String) (v : α) : KV α :=
  fun j => if j = k then some v else s j

def KV.removeItem {α : Type} (s : KV α) (k : String) : KV α :=
  fun j => if j = k then none else s j

/-! ## Credentials and token refresh (SessionManager) -/

/-- The CredentialPair held in the `authToken` / `authRefreshToken` /
`authUserId` / `authEmail` state fields.  `""` models an absent value. -/
structure Creds where
  accessToken : String
  refreshToken : String
  userId : String
  email : String
deriving DecidableEq, Repr

def emptyCreds : Creds := ⟨"", "", "", ""⟩

/-- Parsed JSON body of an OK `POST /v1/auth/refresh` response.  Fields the
server omitted are `""` (falsy), matching the `|| ""` / truthiness tests in
the source. -/
structure RefreshData where
  access_token : String
  refresh_token : String
  user_id : String
  email : String
deriving DecidableEq, Repr

/-- Everything one execution of `refreshAccessToken` does:
the credential fields it leaves behind, the value it returns to its caller
(`data.access_token || null`), and the refresh tokens it presented to
`POST /v1/auth/refresh` (one entry per refresh network request issued). -/
structure RefreshRun where
  creds : Creds
  result : Option String
  requests : List String
deriving DecidableEq, Repr

/-- The credential update the success path of `refreshAccessToken`
performs: `setAuthToken(data.access_token || "")`,
`setAuthRefreshToken(data.refresh_token || "")`, and `user_id` / `email`
only when truthy (web `App.jsx` 760-763). -/
def applyRefreshData (c : Creds) (d : RefreshData) : Creds :=
  { accessToken := d.access_token
    refreshToken := d.refresh_token
    userId := if d.user_id = "" then c.userId else d.user_id
    email := if d.email = "" then c.email else d.email }

/-- `refreshAccessToken` (web `App.jsx` 750-772).  `outcome = none` models a
thrown fetch or a non-OK response (both land in the `catch`); `some d` an OK
response with parsed body `d`.  With no refresh token the function returns
`null` without issuing any request. -/
def refreshAccessToken (c : Creds) (outcome : Option RefreshData) : RefreshRun :=
  if c.refreshToken = "" then ⟨c, none, []⟩
  else
    match outcome with
    | none => ⟨emptyCreds, none, [c.refreshToken]⟩
    | some d =>
        ⟨applyRefreshData c d,
         if d.access_token = "" then none else some d.access_token,
         [c.refreshToken]⟩

/-- A fetch response as `authFetch` observes it: the status it branches on
and an opaque body, so that "returned to the caller unchanged" is
expressible. -/
structure HttpResponse where
  status : Nat
  body : String
deriving DecidableEq, Repr

/-- Everything one execution of `authFetch` does: the credential fields it
leaves behind, the response it returns to its caller, how many times the
original request was sent, and the refresh tokens presented to the refresh
endpoint. -/
structure AuthFetchRun where
  creds : Creds
  result : HttpResponse
  fetchCount : Nat
  refreshRequests : List String
deriving DecidableEq, Repr

/-- `authFetch` (web `App.jsx` 774-785).  `r1` is the response to the first
send of the request, `ro` the refresh outcome consumed by
`refreshAccessToken` when a refresh happens, `r2` the response to the retry
when one is issued. -/
def authFetch (c : Creds) (r1 : HttpResponse) (ro : Option RefreshData)
    (r2 : HttpResponse) : AuthFetchRun :=
  if r1.status ≠ 401 ∨ c.refreshToken = "" then ⟨c, r1, 1, []⟩
  else
    let run := refreshAccessToken c ro
    match run.result with
    | none => ⟨run.creds, r1, 1, run.requests⟩
    | some _ => ⟨run.creds, r2, 2, run.requests⟩

/-! ## Interleaved execution of two `authFetch` calls

Per the concurrency model the runtime is single-threaded and event-driven:
the code between two suspension points (network calls) runs atomically on
the shared state.  Each in-flight `authFetch` is a coroutine whose
synchronous segments are triggered by the arrival of a response. -/

/-- State shared by all in-flight calls: the credential fields, plus the
log of refresh tokens presented to `POST /v1/auth/refresh` so far. -/
structure SharedAuth where
  creds : Creds
  refreshLog : List String
deriving DecidableEq, Repr

/-- Where one in-flight `authFetch` coroutine stands. -/
inductive CallPhase where
  | awaitingFirst
  | awaitingRefresh (firstStatus : Nat)
  | awaitingRetry
  | finished (status : Nat)
deriving DecidableEq, Repr

/-- The synchronous segment of `authFetch` that runs when the first fetch's
response arrives (web `App.jsx` 780-781 and, entered synchronously from it,
the guard and request-issue of `refreshAccessToken`, 751-757): the 401
check, and — when it passes — issuing the refresh request presenting the
refresh token read from the shared state at that instant. -/
def onFirstResponse (sh : SharedAuth) (status : Nat) : SharedAuth × CallPhase :=
  if status ≠ 401 ∨ sh.creds.refreshToken = "" then (sh, .finished status)
  else
    ({ sh with refreshLog := sh.refreshLog ++ [sh.creds.refreshToken] },
     .awaitingRefresh status)

/-- The synchronous segment that runs when a refresh response arrives
(web `App.jsx` 758-771 and 782-784): apply the credential update, and
either return the original 401 response or issue the retry. -/
def onRefreshResponse (sh : SharedAuth) (firstStatus : Nat)
    (outcome : Option RefreshData) : SharedAuth × CallPhase :=
  match outcome with
  | none => ({ sh with creds := emptyCreds }, .finished firstStatus)
  | some d =>
      ({ sh with creds := applyRefreshData sh.creds d },
       if d.access_token = "" then .finished firstStatus else .awaitingRetry)

/-! ## Chapter cache (ContentCache) -/

def MAX_CACHE_CHAPTERS : Nat := 200

/-- `cacheKey` (web `App.jsx` 156-157): the composite storage key.  Book
and chapter are numbers in the source (`Number(...)` coercions at the call
sites). -/
def cacheKey (versionId : String) (bookId chapter : Nat) : String :=
  "chapter:" ++ versionId ++ ":" ++ toString bookId ++ ":" ++ toString chapter

/-- The payload of a chapter fetch as the cache stores it (content hash
plus the rest of the body, kept opaque as a verse list). -/
structure ChapterPayload where
  content_hash : String
  verses : List String
deriving DecidableEq, Repr

/-- The record `setCachedChapter` persists: the payload spread together
with the `cached_at` stamp. -/
structure ChapterRecord where
  payload : ChapterPayload
  cached_at : String
deriving DecidableEq, Repr

/-- A raw persisted value under a chapter key: a JSON string that either
parses back to a chapter record or fails to parse. -/
inductive StoredValue where
  | record (r : ChapterRecord)
  | corrupt (raw : String)
deriving DecidableEq, Repr

/-- The cache's persisted state: the recency index held under the
`chapter_cache_index` key (oldest first), and the chapter entries held
under their own keys.  The index key is disjoint from every chapter key,
so the two are modelled as separate components. -/
structure CacheState where
  index : List String
  store : KV StoredValue

/-- First run: `loadCacheIndex` finds no index and returns `[]`, and the
storage holds no chapter entries. -/
def emptyCacheState : CacheState := ⟨[], KV.empty⟩

/-- The `while (items.length > MAX_CACHE_CHAPTERS)` eviction loop of
`touchCacheKey` (web `App.jsx` 193-196): repeatedly shift the oldest key
off the index and remove its entry (the removal is skipped for a falsy
key, as in `if (evicted)`). -/
def evictOldest : List String → KV StoredValue → List String × KV StoredValue
  | [], store => ([], store)
  | e :: rest, store =>
      if (e :: rest).length > MAX_CACHE_CHAPTERS then
        evictOldest rest (if e = "" then store else store.removeItem e)
      else (e :: rest, store)

/-- `touchCacheKey` (web `App.jsx` 190-198): move `key` to the
most-recently-used end of the index, evict down to capacity, save the
index. -/
def touchCacheKey (st : CacheState) (key : String) : CacheState :=
  let items := st.index.filter (fun item => item != key) ++ [key]
  let p := evictOldest items st.store
  ⟨p.1, p.2⟩

/-- `getCachedChapter` (web `App.jsx` 200-211).  Returns the state after
the lookup (a parse hit touches the key) and the value handed back: a
missing raw value and a raw value that fails `JSON.parse` both yield
`null`, and the parse failure leaves the stored record and its index slot
in place. -/
def getCachedChapter (st : CacheState) (versionId : String)
    (bookId chapter : Nat) : CacheState × Option ChapterRecord :=
  let key := cacheKey versionId bookId chapter
  match st.store.getItem key with
  | none => (st, none)
  | some (StoredValue.record r) => (touchCacheKey st key, some r)
  | some (StoredValue.corrupt _) => (st, none)

/-- `setCachedChapter` (web `App.jsx` 213-218): store the payload with a
`cached_at` stamp under the key, then touch the key. -/
def setCachedChapter (st : CacheState) (versionId : String)
    (bookId chapter : Nat) (payload : ChapterPayload) (now : String) :
    CacheState :=
  let key := cacheKey versionId bookId chapter
  touchCacheKey
    { st with store := st.store.setItem key (StoredValue.record ⟨payload, now⟩) }
    key

/-- One cache operation: a `setCachedChapter` store or a
`getCachedChapter` lookup. -/
inductive CacheOp where
  | put (versionId : String) (bookId chapter : Nat) (payload : ChapterPayload)
      (now : String)
  | get (versionId : String) (bookId chapter : Nat)

/-- Run a sequence of cache operations.  Also returns the touch trace: the
keys marked most-recently-used, in order (a `put` always touches its key;
a `get` touches only on a parse hit). -/
def runCacheOps : CacheState → List CacheOp → CacheState × List String
  | st, [] => (st, [])
  | st, CacheOp.put v b c payload now :: ops =>
      let r := runCacheOps (setCachedChapter st v b c payload now) ops
      (r.1, cacheKey v b c :: r.2)
  | st, CacheOp.get v b c :: ops =>
      let g := getCachedChapter st v b c
      let r := runCacheOps g.1 ops
      (r.1, (if g.2.isSome then [cacheKey v b c] else []) ++ r.2)

/-- The distinct keys of a trace in order of their last occurrence. -/
def dedupLast : List String → List String
  | [] => []
  | k :: rest => if k ∈ rest then dedupLast rest else k :: dedupLast rest

/-- The last `n` elements of a list. -/
def takeLast (n : Nat) (l : List String) : List String :=
  l.drop (l.length - n)

/-- The read-through display of `loadChapter`: nothing, the freshly
fetched body, or the cached record. -/
inductive Displayed where
  | noData
  | fresh (data : ChapterPayload)
  | fromCache (r : ChapterRecord)
deriving DecidableEq, Repr

/-- The "updated" notice text (English half of the `t(en, ko)` pair). -/
def UPDATED_NOTICE : String := "Content updated; cache refreshed."

/-- Everything one `loadChapter` network phase produces: the cache state
it leaves, what is displayed, the notice and error texts, and how many
times the updated notice was emitted. -/
structure LoadResult where
  cache : CacheState
  displayed : Displayed
  notice : String
  error : String
  updatedCount : Nat

/-- `loadChapter`'s cache/network interplay for a fixed request (web
`App.jsx` 559-597): the cache read, then the fetch outcome — `Except.ok`
an OK response with parsed body, `Except.error` a thrown error (a non-OK
response throws "Failed to load chapter.").  On success the body is
displayed and cached, with the updated notice exactly when the cached
record's hash is truthy and differs from the fresh hash; on failure the
cached record, if any, is displayed with the offline error. -/
def loadChapter (st : CacheState) (versionId : String) (bookId chapter : Nat)
    (netResult : Except String ChapterPayload) (now : String) : LoadResult :=
  let g := getCachedChapter st versionId bookId chapter
  match netResult with
  | Except.ok data =>
      let differs : Bool :=
        match g.2 with
        | some r => r.payload.content_hash != "" &&
            r.payload.content_hash != data.content_hash
        | none => false
      { cache := setCachedChapter g.1 versionId bookId chapter data now
        displayed := Displayed.fresh data
        notice := if differs then UPDATED_NOTICE else ""
        error := ""
        updatedCount := if differs then 1 else 0 }
  | Except.error msg =>
      match g.2 with
      | some r =>
          { cache := g.1
            displayed := Displayed.fromCache r
            notice := ""
            error := "Showing offline cache."
            updatedCount := 0 }
      | none =>
          { cache := g.1
            displayed := Displayed.noData
            notice := ""
            error := msg
            updatedCount := 0 }

/-! ## Quota reconciliation and message sending (QuotaReconciler) -/

/-- The `chatMeta` snapshot: `mode` with `""` for absent, every counter an
`Option` (`none` models JS `undefined`/`null`, which is what `??`
tests). -/
structure ChatMeta where
  mode : String
  store_messages : Option Bool
  expires_at : Option String
  turn_limit : Option Int
  turn_count : Option Int
  remaining_turns : Option Int
  daily_turn_limit : Option Int
  daily_turn_count : Option Int
  daily_remaining : Option Int
deriving DecidableEq, Repr

/-- The `data.memory` object of a message-send response body. -/
structure MemoryFields where
  store_messages : Option Bool
  expires_at : Option String
  turn_limit : Option Int
  turn_count : Option Int
  remaining_turns : Option Int
  daily_turn_limit : Option Int
  daily_turn_count : Option Int
  daily_remaining : Option Int
deriving DecidableEq, Repr

/-- The `setChatMeta((prev) => ...)` merge on a successful send
(web `App.jsx` 686-698): each field is `data.memory.field ?? prev?.field`,
and `mode` is `prev?.mode || (authToken ? "authenticated" : "anonymous")`. -/
def mergeChatMeta (prev : Option ChatMeta) (authToken : String)
    (m : MemoryFields) : ChatMeta :=
  let prevMode := match prev with | some p => p.mode | none => ""
  { mode := if prevMode ≠ "" then prevMode
            else if authToken ≠ "" then "authenticated" else "anonymous"
    store_messages := m.store_messages <|> prev.bind fun p => p.store_messages
    expires_at := m.expires_at <|> prev.bind fun p => p.expires_at
    turn_limit := m.turn_limit <|> prev.bind fun p => p.turn_limit
    turn_count := m.turn_count <|> prev.bind fun p => p.turn_count
    remaining_turns := m.remaining_turns <|> prev.bind fun p => p.remaining_turns
    daily_turn_limit := m.daily_turn_limit <|> prev.bind fun p => p.daily_turn_limit
    daily_turn_count := m.daily_turn_count <|> prev.bind fun p => p.daily_turn_count
    daily_remaining := m.daily_remaining <|> prev.bind fun p => p.daily_remaining }

/-- Outcome of the `POST /chat/conversations/{id}/messages` call as
`sendMessage` branches on it: an OK response with its parsed body, a 410, a
429 with the parsed error message (`""` when the body fails to parse), or
any other failure. -/
inductive SendResponse where
  | ok (memory : Option MemoryFields) (assistant : String)
  | gone
  | limitHit (message : String)
  | otherFailure
deriving DecidableEq, Repr

structure ChatMsg where
  role : String
  content : String
deriving DecidableEq, Repr

/-- JavaScript `String.prototype.trim()`: strips leading and trailing
whitespace.  Defined structurally so that concrete inputs evaluate. -/
def jsTrim (s : String) : String :=
  ⟨((s.data.dropWhile Char.isWhitespace).reverse.dropWhile Char.isWhitespace).reverse⟩

/-- The chat-related state fields `sendMessage` reads and writes. -/
structure ChatState where
  conversationId : String
  chatInput : String
  chatMessages : List ChatMsg
  chatMeta : Option ChatMeta
  chatLimitReached : Bool
  chatLimitReason : String
  chatError : String
  authToken : String
deriving DecidableEq, Repr

/-- `sendMessage` (web `App.jsx` 648-708) for a state whose conversation
already exists (`ensureConversation` returns `conversationId` unchanged).
Returns the updated state and whether the send request was issued at all:
`false` means the guard `if (!chatInput.trim() || chatLimitReached) return`
refused before any network activity, so `res` is unused.  Error messages
are the English texts of the bilingual `t(en, ko)` pairs. -/
def sendMessage (st : ChatState) (res : SendResponse) : ChatState × Bool :=
  if jsTrim st.chatInput = "" ∨ st.chatLimitReached then (st, false)
  else
    let userMessage := jsTrim st.chatInput
    let st0 := { st with
                 chatError := ""
                 chatInput := ""
                 chatMessages := st.chatMessages ++ [ChatMsg.mk "user" userMessage] }
    match res with
    | .gone =>
        ({ st0 with
           conversationId := ""
           chatLimitReached := false
           chatLimitReason := ""
           chatError := "Session expired." }, true)
    | .limitHit message =>
        let isDailyLimit := message = "daily trial limit reached"
        ({ st0 with
           chatLimitReached := true
           chatLimitReason := if isDailyLimit then "daily" else "trial"
           chatError := if isDailyLimit then "Daily limit reached for today."
                        else "Trial limit reached." }, true)
    | .otherFailure => ({ st0 with chatError := "Failed to generate response." }, true)
    | .ok memory assistant =>
        let st1 := match memory with
          | some m => { st0 with
              chatMeta := some (mergeChatMeta st0.chatMeta st0.authToken m) }
          | none => st0
        ({ st1 with chatMessages := st1.chatMessages ++ [ChatMsg.mk "assistant" assistant] },
         true)

/-- Modelled from the spec: the exhaustion predicate `isExhausted()`
("true when `remainingTurns<=0` or `dailyRemaining<=0` in the latest
snapshot") as the spec words it, for comparison with the refusal behavior
the code actually implements. -/
def isExhaustedSpec (meta : Option ChatMeta) : Bool :=
  match meta with
  | none => false
  | some m =>
      (match m.remaining_turns with | some r => decide (r ≤ 0) | none => false) ||
      (match m.daily_remaining with | some r => decide (r ≤ 0) | none => false)

/-! ## PKCE handshake completion (SessionManager) -/

def pkceVerifierKey (state : String) : String := "pkce_verifier:" ++ state

/-- What the OAuth redirect callback decides before any token exchange. -/
inductive OauthOutcome where
  | canceled
  | incomplete
  | mismatch
  | exchange (code state verifier : String)
deriving DecidableEq, Repr

/-- The OAuth redirect-callback handler (web `App.jsx` 971-996; named
`handleOauthUrl` in the native variant) up to the point where the token
exchange is or is not issued.  `code` / `state` / `error` are the query
parameters with `""` for absent; the result is `none` when no OAuth
parameter is present at all.  The stored verifier for `state` is read and
deleted before it is tested. -/
def handleOauthUrl (store : KV String) (code state error : String) :
    KV String × Option OauthOutcome :=
  if code = "" ∧ state = "" ∧ error = "" then (store, none)
  else if error ≠ "" then (store, some .canceled)
  else if code = "" ∨ state = "" then (store, some .incomplete)
  else
    let verifier := store.getItem (pkceVerifierKey state)
    let store' := store.removeItem (pkceVerifierKey state)
    match verifier with
    | none => (store', some .mismatch)
    | some v => if v = "" then (store', some .mismatch)
                else (store', some (.exchange code state v))

/-! ## Logout (SessionManager) -/

/-- The account-related state fields `handleLogout` reads and writes.
Bookmark and memo items are opaque strings here. -/
structure AccountState where
  authToken : String
  authRefreshToken : String
  authUserId : String
  authEmail : String
  authPassword : String
  authCaptcha : String
  bookmarks : List String
  memos : List String
  authError : String
  authNotice : String
deriving DecidableEq, Repr

/-- Outcome of one network call: the response (any status), or a thrown
transport error. -/
inductive NetResult where
  | resolved (status : Nat)
  | threw (message : String)
deriving DecidableEq, Repr

/-- The assignments after a non-throwing logout request (web `App.jsx`
1231-1238).  `authEmail` is not cleared by the web handler. -/
def clearSignInFields (s : AccountState) : AccountState :=
  { s with
    authToken := ""
    authRefreshToken := ""
    authUserId := ""
    authPassword := ""
    authCaptcha := ""
    bookmarks := []
    memos := []
    authNotice := "Logged out." }

/-- `handleLogout` (web `App.jsx` 1220-1244).  When a refresh token is
present the logout request is awaited and `out` is its outcome; with no
refresh token no request is made and `out` is unused. -/
def handleLogout (st : AccountState) (out : NetResult) : AccountState :=
  let st0 := { st with authError := "", authNotice := "" }
  if st.authRefreshToken ≠ "" then
    match out with
    | .threw message => { st0 with authError := message }
    | .resolved _ => clearSignInFields st0
  else clearSignInFields st0

/-! ## Derived definitions and concrete example states -/

/-- The store after the eviction loop has removed the listed keys, oldest
first (a falsy key is skipped, as in `if (evicted)`). -/
def dropKeys (store : KV StoredValue) (l : List String) : KV StoredValue :=
  l.foldl (fun s e => if e = "" then s else s.removeItem e) store

/-- The run invariant for C4: the persisted index is exactly the (at most
200) most-recently-touched keys in recency order, trace keys are truthy,
and an entry exists exactly when its key holds an index slot. -/
def CacheInv (st : CacheState) (tr : List String) : Prop :=
  st.index = takeLast MAX_CACHE_CHAPTERS (dedupLast tr) ∧
  (∀ j ∈ tr, j ≠ "") ∧
  (∀ j, (st.store.getItem j).isSome ↔ j ∈ st.index)

/-- A concrete chat state with an existing conversation, a pending input
and no limit flag set, used by the C7 theorems. -/
def chatStExample : ChatState :=
  { conversationId := "c1"
    chatInput := "hello"
    chatMessages := []
    chatMeta := none
    chatLimitReached := false
    chatLimitReason := ""
    chatError := ""
    authToken := "" }

/-- A server-reported memory snapshot with `remaining_turns = 0`. -/
def memZeroExample : MemoryFields :=
  ⟨none, none, none, none, some 0, none, none, none⟩

/-- A concrete signed-in account state, used by the C10 witness. -/
def accountStExample : AccountState :=
  { authToken := "acc"
    authRefreshToken := "ref"
    authUserId := "u1"
    authEmail := "e1"
    authPassword := "pw"
    authCaptcha := ""
    bookmarks := ["b1"]
    memos := []
    authError := ""
    authNotice := "" }

/-- Concrete payloads and cache states used by the cache witnesses. -/
def chapterPayloadExample : ChapterPayload := ⟨"abc", ["v1"]⟩

def freshPayloadExample : ChapterPayload := ⟨"def", ["v2"]⟩

def cachedRecordExample : ChapterRecord := ⟨chapterPayloadExample, "t0"⟩

/-- A cache holding one well-formed record for `(krv, 1, 1)`. -/
def cacheStExample : CacheState :=
  ⟨[cacheKey "krv" 1 1],
    KV.empty.setItem (cacheKey "krv" 1 1) (StoredValue.record cachedRecordExample)⟩

/-- A cache whose `(krv, 1, 1)` slot holds an unparseable record. -/
def corruptStExample : CacheState :=
  ⟨[cacheKey "krv" 1 1],
    KV.empty.setItem (cacheKey "krv" 1 1) (StoredValue.corrupt "not json")⟩

/-- A put-free operation sequence used by the C9 witness. -/
def getOpsExample : List CacheOp :=
  [CacheOp.get "krv" 1 1, CacheOp.get "krv" 2 5]

/-! ## Storage and eviction lemmas -/

theorem getItem_setItem_self {α : Type} (s : KV α) (k : String) (v : α) :
    (s.setItem k v).getItem k = some v := by
  simp [KV.getItem, KV.setItem]

theorem getItem_setItem_ne {α : Type} (s : KV α) (k j : String) (v : α)
    (h : j ≠ k) : (s.setItem k v).getItem j = s.getItem j := by
  simp [KV.getItem, KV.setItem, h]

theorem getItem_removeItem {α : Type} (s : KV α) (k j : String) :
    (s.removeItem k).getItem j = if j = k then none else s.getItem j := by
  simp [KV.getItem, KV.removeItem]

theorem getItem_dropKeys (l : List String) (store : KV StoredValue) (j : String) :
    (dropKeys store l).getItem j =
      if j ∈ l ∧ j ≠ "" then none else store.getItem j := by
  induction l generalizing store with
  | nil => simp [dropKeys]
  | cons e l ih =>
      have hstep : dropKeys store (e :: l) =
          dropKeys (if e = "" then store else store.removeItem e) l := rfl
      rw [hstep, ih]
      by_cases hjl : j ∈ l ∧ j ≠ ""
      · rw [if_pos hjl, if_pos ⟨List.mem_cons_of_mem e hjl.1, hjl.2⟩]
      · rw [if_neg hjl]
        by_cases he : e = ""
        · rw [if_pos he]
          have : (j ∈ e :: l ∧ j ≠ "") ↔ (j ∈ l ∧ j ≠ "") := by
            subst he
            constructor
            · rintro ⟨hm, hne⟩
              rcases List.mem_cons.mp hm with rfl | hm
              · exact absurd rfl hne
              · exact ⟨hm, hne⟩
            · exact fun ⟨hm, hne⟩ => ⟨List.mem_cons_of_mem _ hm, hne⟩
          rw [if_neg (fun hc => hjl (this.mp hc))]
        · rw [if_neg he, getItem_removeItem]
          by_cases hje : j = e
          · subst hje
            rw [if_pos rfl, if_pos ⟨List.mem_cons_self _ _, he⟩]
          · rw [if_neg hje]
            have : ¬(j ∈ e :: l ∧ j ≠ "") := by
              rintro ⟨hm, hne⟩
              rcases List.mem_cons.mp hm with rfl | hm
              · exact hje rfl
              · exact hjl ⟨hm, hne⟩
            rw [if_neg this]

theorem evictOldest_eq (items : List String) (store : KV StoredValue) :
    evictOldest items store =
      (takeLast MAX_CACHE_CHAPTERS items,
       dropKeys store (items.take (items.length - MAX_CACHE_CHAPTERS))) := by
  induction items generalizing store with
  | nil => simp [evictOldest, takeLast, dropKeys]
  | cons e rest ih =>
      have hcons : evictOldest (e :: rest) store =
          if (e :: rest).length > MAX_CACHE_CHAPTERS then
            evictOldest rest (if e = "" then store else store.removeItem e)
          else (e :: rest, store) := rfl
      rw [hcons]
      by_cases h : (e :: rest).length > MAX_CACHE_CHAPTERS
      · rw [if_pos h, ih]
        have h1 : (e :: rest).length - MAX_CACHE_CHAPTERS =
            (rest.length - MAX_CACHE_CHAPTERS) + 1 := by
          simp only [List.length_cons] at h ⊢
          omega
        have h2 : takeLast MAX_CACHE_CHAPTERS (e :: rest) =
            takeLast MAX_CACHE_CHAPTERS rest := by
          simp only [takeLast, h1, List.drop_succ_cons]
        have h3 : (e :: rest).take ((e :: rest).length - MAX_CACHE_CHAPTERS) =
            e :: rest.take (rest.length - MAX_CACHE_CHAPTERS) := by
          rw [h1, List.take_succ_cons]
        have h4 : dropKeys store ((e :: rest).take
            ((e :: rest).length - MAX_CACHE_CHAPTERS)) =
            dropKeys (if e = "" then store else store.removeItem e)
              (rest.take (rest.length - MAX_CACHE_CHAPTERS)) := by
          rw [h3]
          simp only [dropKeys, List.foldl_cons]
        rw [h2, h4]
      · rw [if_neg h]
        have h0 : rest.length + 1 - MAX_CACHE_CHAPTERS = 0 := by
          simp only [List.length_cons] at h
          omega
        simp [takeLast, h0, dropKeys]

/-! ## takeLast and dedupLast lemmas -/

theorem takeLast_eq_self {n : Nat} {l : List String} (h : l.length ≤ n) :
    takeLast n l = l := by
  simp [takeLast, Nat.sub_eq_zero_of_le h]

theorem takeLast_sublist (n : Nat) (l : List String) :
    List.Sublist (takeLast n l) l :=
  List.drop_sublist _ _

theorem length_takeLast (n : Nat) (l : List String) :
    (takeLast n l).length = l.length - (l.length - n) := by
  simp [takeLast]

theorem takeLast_append_of_le {n : Nat} (xs ys : List String)
    (h : n ≤ ys.length) : takeLast n (xs ++ ys) = takeLast n ys := by
  unfold takeLast
  rw [List.length_append, List.drop_append_eq_append_drop]
  have h1 : xs.length ≤ xs.length + ys.length - n := by omega
  have h2 : xs.length + ys.length - n - xs.length = ys.length - n := by omega
  rw [List.drop_eq_nil_of_le h1, h2, List.nil_append]

theorem takeLast_append_one (xs : List String) (k : String) (n : Nat) :
    takeLast (n + 1) (xs ++ [k]) = takeLast n xs ++ [k] := by
  unfold takeLast
  rw [List.length_append, List.drop_append_eq_append_drop]
  have h1 : xs.length + [k].length - (n + 1) = xs.length - n := by
    simp only [List.length_singleton]
    omega
  have h2 : xs.length - n - xs.length = 0 := by omega
  rw [h1, h2, List.drop_zero]

theorem mem_dedupLast {a : String} : ∀ {l : List String},
    a ∈ dedupLast l ↔ a ∈ l := by
  intro l
  induction l with
  | nil => simp [dedupLast]
  | cons k rest ih =>
      simp only [dedupLast]
      split_ifs with h
      · rw [ih, List.mem_cons]
        constructor
        · exact Or.inr
        · rintro (rfl | ha)
          · exact h
          · exact ha
      · simp [List.mem_cons, ih]

theorem nodup_dedupLast : ∀ (l : List String), (dedupLast l).Nodup
  | [] => by simp [dedupLast]
  | k :: rest => by
      simp only [dedupLast]
      split_ifs with h
      · exact nodup_dedupLast rest
      · exact List.nodup_cons.mpr
          ⟨fun hm => h (mem_dedupLast.mp hm), nodup_dedupLast rest⟩

theorem dedupLast_cons (x : String) (l : List String) :
    dedupLast (x :: l) = if x ∈ l then dedupLast l else x :: dedupLast l := rfl

theorem dedupLast_append_one (tr : List String) (k : String) :
    dedupLast (tr ++ [k]) =
      (dedupLast tr).filter (fun a => a != k) ++ [k] := by
  induction tr with
  | nil => simp [dedupLast]
  | cons a tr ih =>
      by_cases hak : a = k
      · subst hak
        calc dedupLast ((a :: tr) ++ [a])
            = dedupLast (tr ++ [a]) := by
              rw [List.cons_append, dedupLast_cons, if_pos (by simp)]
          _ = (dedupLast tr).filter (fun x => x != a) ++ [a] := ih
          _ = (dedupLast (a :: tr)).filter (fun x => x != a) ++ [a] := by
              rw [dedupLast_cons]
              by_cases h2 : a ∈ tr
              · rw [if_pos h2]
              · rw [if_neg h2, List.filter_cons]
                simp
      · by_cases h2 : a ∈ tr
        · calc dedupLast ((a :: tr) ++ [k])
              = dedupLast (tr ++ [k]) := by
                rw [List.cons_append, dedupLast_cons,
                  if_pos (List.mem_append_left _ h2)]
            _ = (dedupLast tr).filter (fun x => x != k) ++ [k] := ih
            _ = (dedupLast (a :: tr)).filter (fun x => x != k) ++ [k] := by
                rw [dedupLast_cons, if_pos h2]
        · have hmem : a ∉ tr ++ [k] := by simp [hak, h2]
          calc dedupLast ((a :: tr) ++ [k])
              = a :: dedupLast (tr ++ [k]) := by
                rw [List.cons_append, dedupLast_cons, if_neg hmem]
            _ = a :: ((dedupLast tr).filter (fun x => x != k) ++ [k]) := by
                rw [ih]
            _ = (dedupLast (a :: tr)).filter (fun x => x != k) ++ [k] := by
                rw [dedupLast_cons, if_neg h2, List.filter_cons]
                have hbne : (a != k) = true := bne_iff_ne.mpr hak
                simp [hbne]

theorem length_filter_ne_of_nodup (l : List String) (k : String)
    (h : l.Nodup) : l.length - 1 ≤ (l.filter (fun a => a != k)).length := by
  induction l with
  | nil => simp
  | cons a l ih =>
      rw [List.nodup_cons] at h
      by_cases hak : a = k
      · subst hak
        have hfe : l.filter (fun x => x != a) = l := by
          apply List.filter_eq_self.mpr
          intro x hx
          exact bne_iff_ne.mpr (fun hxa => h.1 (hxa ▸ hx))
        have : (a != a) = false := by simp
        simp [List.filter_cons, this, hfe]
      · have hle := ih h.2
        have : (a != k) = true := bne_iff_ne.mpr hak
        simp only [List.filter_cons, this, if_true, List.length_cons]
        omega

theorem takeLast_filter_comm (d : List String) (k : String) (n : Nat)
    (hd : d.Nodup) :
    takeLast n ((takeLast (n + 1) d).filter (fun a => a != k)) =
      takeLast n (d.filter (fun a => a != k)) := by
  by_cases h : d.length ≤ n + 1
  · rw [takeLast_eq_self h]
  · have hsplit : d.take (d.length - (n + 1)) ++ d.drop (d.length - (n + 1)) = d :=
      List.take_append_drop _ _
    have hB : takeLast (n + 1) d = d.drop (d.length - (n + 1)) := rfl
    conv_rhs => rw [← hsplit]
    rw [List.filter_append]
    have hBnodup : (d.drop (d.length - (n + 1))).Nodup :=
      hd.sublist (List.drop_sublist _ _)
    have hBlen : (d.drop (d.length - (n + 1))).length = n + 1 := by
      rw [List.length_drop]
      omega
    have hflen : n ≤ ((d.drop (d.length - (n + 1))).filter
        (fun a => a != k)).length := by
      have := length_filter_ne_of_nodup _ k hBnodup
      omega
    rw [takeLast_append_of_le _ _ hflen, hB]

/-! ## Cache invariant machinery -/

theorem cacheKey_ne_empty (v : String) (b c : Nat) : cacheKey v b c ≠ "" := by
  intro h
  have hl := congrArg String.length h
  simp only [cacheKey, String.length_append] at hl
  have h8 : ("chapter:" : String).length = 8 := rfl
  have h1 : (":" : String).length = 1 := rfl
  have h0 : ("" : String).length = 0 := rfl
  omega

theorem touchCacheKey_index (st : CacheState) (k : String) :
    (touchCacheKey st k).index =
      takeLast MAX_CACHE_CHAPTERS (st.index.filter (fun a => a != k) ++ [k]) := by
  simp [touchCacheKey, evictOldest_eq]

theorem touchCacheKey_store (st : CacheState) (k : String) :
    (touchCacheKey st k).store =
      dropKeys st.store ((st.index.filter (fun a => a != k) ++ [k]).take
        ((st.index.filter (fun a => a != k) ++ [k]).length - MAX_CACHE_CHAPTERS)) := by
  simp [touchCacheKey, evictOldest_eq]

theorem getItem_touch_or (st : CacheState) (k j : String) :
    (touchCacheKey st k).store.getItem j = st.store.getItem j ∨
      (touchCacheKey st k).store.getItem j = none := by
  rw [touchCacheKey_store, getItem_dropKeys]
  split_ifs
  · right
    rfl
  · left
    rfl

/-- The key being touched is never among the keys the eviction loop
removes: the loop only drops keys from the front, and the touched key sits
alone at the back. -/
theorem key_not_in_evicted (idx : List String) (k : String) :
    k ∉ (idx.filter (fun a => a != k) ++ [k]).take
      ((idx.filter (fun a => a != k) ++ [k]).length - MAX_CACHE_CHAPTERS) := by
  intro hmem
  set xs := idx.filter (fun a => a != k) with hxs
  have hkxs : k ∉ xs := by
    intro hkm
    have := (List.mem_filter.mp hkm).2
    simp at this
  have htake : (xs ++ [k]).take ((xs ++ [k]).length - MAX_CACHE_CHAPTERS) =
      xs.take ((xs ++ [k]).length - MAX_CACHE_CHAPTERS) := by
    rw [List.take_append_eq_append_take]
    have hz : (xs ++ [k]).length - MAX_CACHE_CHAPTERS - xs.length = 0 := by
      simp only [List.length_append, List.length_singleton, MAX_CACHE_CHAPTERS]
      omega
    rw [hz]
    simp
  rw [htake] at hmem
  exact hkxs (List.take_subset _ _ hmem)

theorem getItem_touch_self (st : CacheState) (k : String) :
    (touchCacheKey st k).store.getItem k = st.store.getItem k := by
  rw [touchCacheKey_store, getItem_dropKeys]
  rw [if_neg]
  rintro ⟨hmem, -⟩
  exact key_not_in_evicted st.index k hmem

theorem setCachedChapter_getItem_self (st : CacheState) (v : String)
    (b c : Nat) (payload : ChapterPayload) (now : String) :
    (setCachedChapter st v b c payload now).store.getItem (cacheKey v b c) =
      some (StoredValue.record ⟨payload, now⟩) := by
  simp only [setCachedChapter]
  rw [getItem_touch_self]
  exact getItem_setItem_self _ _ _

theorem touch_mem_clause (S : KV StoredValue) (idx : List String)
    (k : String)
    (hidxnodup : idx.Nodup)
    (hidxne : ∀ i ∈ idx, i ≠ "")
    (hk : k ≠ "")
    (hmem : ∀ i, i ≠ k → ((S.getItem i).isSome ↔ i ∈ idx))
    (hkS : (S.getItem k).isSome) (j : String) :
    ((touchCacheKey ⟨idx, S⟩ k).store.getItem j).isSome ↔
      j ∈ (touchCacheKey ⟨idx, S⟩ k).index := by
  have hidx0 : (CacheState.mk idx S).index = idx := rfl
  have hS0 : (CacheState.mk idx S).store = S := rfl
  rw [touchCacheKey_store, touchCacheKey_index, hidx0, hS0, getItem_dropKeys]
  set xs := idx.filter (fun a => a != k) with hxs
  set nTake := (xs ++ [k]).length - MAX_CACHE_CHAPTERS with hnTake
  have hkept_eq : takeLast MAX_CACHE_CHAPTERS (xs ++ [k]) = (xs ++ [k]).drop nTake := rfl
  rw [hkept_eq]
  have hkxs : k ∉ xs := by
    intro hkm
    have := (List.mem_filter.mp hkm).2
    simp at this
  have hxsnodup : xs.Nodup := hidxnodup.filter _
  have hitems_nodup : (xs ++ [k]).Nodup := by
    refine List.Nodup.append hxsnodup (List.nodup_singleton k) ?_
    intro a ha hb
    rw [List.mem_singleton] at hb
    subst hb
    exact hkxs ha
  have hsplit : (xs ++ [k]).take nTake ++ (xs ++ [k]).drop nTake = xs ++ [k] :=
    List.take_append_drop _ _
  have hdisj : List.Disjoint ((xs ++ [k]).take nTake) ((xs ++ [k]).drop nTake) :=
    (List.nodup_append.mp (hsplit.symm ▸ hitems_nodup)).2.2
  have hknotin : k ∉ (xs ++ [k]).take nTake := key_not_in_evicted idx k
  by_cases hdrop : j ∈ (xs ++ [k]).take nTake ∧ j ≠ ""
  · rw [if_pos hdrop]
    simp only [Option.isSome_none, Bool.false_eq_true, false_iff]
    exact fun hjk => hdisj hdrop.1 hjk
  · rw [if_neg hdrop]
    by_cases hjk : j = k
    · have hjkept : k ∈ (xs ++ [k]).drop nTake := by
        have hj2 : k ∈ xs ++ [k] :=
          List.mem_append_right _ (List.mem_singleton_self k)
        rcases List.mem_append.mp (hsplit.symm ▸ hj2) with hc | hc
        · exact absurd hc hknotin
        · exact hc
      rw [hjk]
      exact ⟨fun _ => hjkept, fun _ => hkS⟩
    · rw [hmem j hjk]
      constructor
      · intro hjidx
        have hjxs : j ∈ xs := List.mem_filter.mpr ⟨hjidx, bne_iff_ne.mpr hjk⟩
        have hj2 : j ∈ xs ++ [k] := List.mem_append_left _ hjxs
        rcases List.mem_append.mp (hsplit.symm ▸ hj2) with hc | hc
        · exact absurd ⟨hc, hidxne j hjidx⟩ hdrop
        · exact hc
      · intro hjkept
        have hj2 : j ∈ xs ++ [k] := hsplit ▸ List.mem_append_right _ hjkept
        rcases List.mem_append.mp hj2 with hc | hc
        · exact (List.mem_filter.mp hc).1
        · exact absurd (List.mem_singleton.mp hc) hjk

theorem touchCacheKey_inv (S : KV StoredValue) (idx tr : List String)
    (k : String)
    (hidx : idx = takeLast MAX_CACHE_CHAPTERS (dedupLast tr))
    (hkeys : ∀ j ∈ tr, j ≠ "")
    (hk : k ≠ "")
    (hmem : ∀ j, j ≠ k → ((S.getItem j).isSome ↔ j ∈ idx))
    (hkS : (S.getItem k).isSome) :
    CacheInv (touchCacheKey ⟨idx, S⟩ k) (tr ++ [k]) := by
  have h200 : MAX_CACHE_CHAPTERS = 199 + 1 := rfl
  have hdnodup : (dedupLast tr).Nodup := nodup_dedupLast tr
  have hidxnodup : idx.Nodup := by
    rw [hidx]
    exact hdnodup.sublist (takeLast_sublist _ _)
  have hmem_idx_tr : ∀ j, j ∈ idx → j ∈ tr := by
    intro j hj
    rw [hidx] at hj
    exact mem_dedupLast.mp ((takeLast_sublist _ _).subset hj)
  refine ⟨?_, ?_, ?_⟩
  · rw [touchCacheKey_index]
    show takeLast MAX_CACHE_CHAPTERS (idx.filter (fun a => a != k) ++ [k]) = _
    rw [dedupLast_append_one, h200, takeLast_append_one, takeLast_append_one]
    have hcomm : takeLast 199 (idx.filter (fun a => a != k)) =
        takeLast 199 ((dedupLast tr).filter (fun a => a != k)) := by
      rw [hidx, h200]
      exact takeLast_filter_comm (dedupLast tr) k 199 hdnodup
    rw [hcomm]
  · intro j hj
    rcases List.mem_append.mp hj with hj | hj
    · exact hkeys j hj
    · rw [List.mem_singleton] at hj
      subst hj
      exact hk
  · exact touch_mem_clause S idx k hidxnodup
      (fun i hi => hkeys i (hmem_idx_tr i hi)) hk hmem hkS

theorem runCacheOps_inv (ops : List CacheOp) :
    ∀ (st : CacheState) (tr : List String), CacheInv st tr →
      CacheInv (runCacheOps st ops).1 (tr ++ (runCacheOps st ops).2) := by
  induction ops with
  | nil =>
      intro st tr h
      simpa [runCacheOps] using h
  | cons op ops ih =>
      intro st tr h
      obtain ⟨hidx, hkeys, hmem⟩ := h
      cases op with
      | put v b c payload now =>
          have hpair : runCacheOps st (CacheOp.put v b c payload now :: ops) =
              ((runCacheOps (setCachedChapter st v b c payload now) ops).1,
                cacheKey v b c ::
                  (runCacheOps (setCachedChapter st v b c payload now) ops).2) := rfl
          have hstep : CacheInv (setCachedChapter st v b c payload now)
              (tr ++ [cacheKey v b c]) := by
            have hform : setCachedChapter st v b c payload now =
                touchCacheKey
                  ⟨st.index, st.store.setItem (cacheKey v b c)
                    (StoredValue.record ⟨payload, now⟩)⟩ (cacheKey v b c) := rfl
            rw [hform]
            refine touchCacheKey_inv _ _ _ _ hidx hkeys
              (cacheKey_ne_empty v b c) ?_ ?_
            · intro j hj
              rw [getItem_setItem_ne _ _ _ _ hj]
              exact hmem j
            · rw [getItem_setItem_self]
              rfl
          have hrun := ih _ _ hstep
          rw [hpair]
          have htr : (tr ++ [cacheKey v b c]) ++
              (runCacheOps (setCachedChapter st v b c payload now) ops).2 =
              tr ++ (cacheKey v b c ::
                (runCacheOps (setCachedChapter st v b c payload now) ops).2) := by
            simp
          rw [← htr]
          exact hrun
      | get v b c =>
          have hpair : runCacheOps st (CacheOp.get v b c :: ops) =
              ((runCacheOps (getCachedChapter st v b c).1 ops).1,
                (if (getCachedChapter st v b c).2.isSome then [cacheKey v b c]
                  else []) ++
                  (runCacheOps (getCachedChapter st v b c).1 ops).2) := rfl
          rcases hG : st.store.getItem (cacheKey v b c) with _ | sv
          · have hg : getCachedChapter st v b c = (st, none) := by
              simp [getCachedChapter, hG]
            rw [hpair, hg]
            simpa using ih st tr ⟨hidx, hkeys, hmem⟩
          · cases sv with
            | record rec =>
                have hg : getCachedChapter st v b c =
                    (touchCacheKey st (cacheKey v b c), some rec) := by
                  simp [getCachedChapter, hG]
                have hstep : CacheInv (touchCacheKey st (cacheKey v b c))
                    (tr ++ [cacheKey v b c]) := by
                  have hform : touchCacheKey st (cacheKey v b c) =
                      touchCacheKey ⟨st.index, st.store⟩ (cacheKey v b c) := rfl
                  rw [hform]
                  refine touchCacheKey_inv _ _ _ _ hidx hkeys
                    (cacheKey_ne_empty v b c) (fun j _ => hmem j) ?_
                  rw [hG]
                  rfl
                have hrun := ih _ _ hstep
                rw [hpair, hg]
                have htr : (tr ++ [cacheKey v b c]) ++
                    (runCacheOps (touchCacheKey st (cacheKey v b c)) ops).2 =
                    tr ++ ((if (some rec).isSome then [cacheKey v b c] else []) ++
                      (runCacheOps (touchCacheKey st (cacheKey v b c)) ops).2) := by
                  simp
                rw [← htr]
                exact hrun
            | corrupt raw =>
                have hg : getCachedChapter st v b c = (st, none) := by
                  simp [getCachedChapter, hG]
                rw [hpair, hg]
                simpa using ih st tr ⟨hidx, hkeys, hmem⟩

/-! ## Theorems: session and quota claims -/

theorem refreshAccessToken_requests_eq (c : Creds) (ro : Option RefreshData)
    (h : c.refreshToken ≠ "") :
    (refreshAccessToken c ro).requests = [c.refreshToken] := by
  cases ro <;> simp [refreshAccessToken, h]

/-- C2: for every outbound authorized call, if the first response is 401 and
a refresh token exists, `authFetch` invokes the refresh once and retries the
original call exactly once, returning the retry's response unchanged even
when it fails; a non-401 first response, a 401 with no refresh token, and a
failed refresh all return the first response unchanged; the original
request is never sent more than twice. -/
theorem authFetch_single_retry (c : Creds) (r1 r2 : HttpResponse)
    (ro : Option RefreshData) :
    (authFetch c r1 ro r2).fetchCount ≤ 2 ∧
    ((r1.status ≠ 401 ∨ c.refreshToken = "") →
      authFetch c r1 ro r2 = ⟨c, r1, 1, []⟩) ∧
    (r1.status = 401 → c.refreshToken ≠ "" →
      (authFetch c r1 ro r2).refreshRequests = [c.refreshToken] ∧
      (((refreshAccessToken c ro).result = none ∧
          (authFetch c r1 ro r2).result = r1 ∧
          (authFetch c r1 ro r2).fetchCount = 1) ∨
        (∃ tok, (refreshAccessToken c ro).result = some tok ∧
          (authFetch c r1 ro r2).result = r2 ∧
          (authFetch c r1 ro r2).fetchCount = 2))) := by
  by_cases h401 : r1.status = 401
  · by_cases hrt : c.refreshToken = ""
    · exact ⟨by simp [authFetch, hrt], fun _ => by simp [authFetch, hrt],
        fun _ h => absurd hrt h⟩
    · have hreq := refreshAccessToken_requests_eq c ro hrt
      rcases hres : (refreshAccessToken c ro).result with _ | tok
      · refine ⟨?_, fun hc => ?_, fun _ _ => ⟨?_, Or.inl ⟨rfl, ?_, ?_⟩⟩⟩
        · simp [authFetch, h401, hrt, hres]
        · rcases hc with hc | hc
          · exact absurd h401 hc
          · exact absurd hc hrt
        · simp [authFetch, h401, hrt, hres, hreq]
        · simp [authFetch, h401, hrt, hres]
        · simp [authFetch, h401, hrt, hres]
      · refine ⟨?_, fun hc => ?_, fun _ _ => ⟨?_, Or.inr ⟨tok, rfl, ?_, ?_⟩⟩⟩
        · simp [authFetch, h401, hrt, hres]
        · rcases hc with hc | hc
          · exact absurd h401 hc
          · exact absurd hc hrt
        · simp [authFetch, h401, hrt, hres, hreq]
        · simp [authFetch, h401, hrt, hres]
        · simp [authFetch, h401, hrt, hres]
  · exact ⟨by simp [authFetch, h401], fun _ => by simp [authFetch, h401],
      fun hc => absurd hc h401⟩

/-- C3 counterexample: a successful refresh whose OK response carries an
empty `access_token` but a non-empty `refresh_token` leaves the pair with
an absent access token and a present refresh token, so the invariant
"access token absent implies refresh token absent" does not hold after
every refresh. -/
theorem refresh_success_can_break_pair_invariant :
    (refreshAccessToken ⟨"acc0", "ref0", "u1", "e1"⟩
        (some ⟨"", "ref1", "", ""⟩)).creds.accessToken = "" ∧
    (refreshAccessToken ⟨"acc0", "ref0", "u1", "e1"⟩
        (some ⟨"", "ref1", "", ""⟩)).creds.refreshToken = "ref1" ∧
    (refreshAccessToken ⟨"acc0", "ref0", "u1", "e1"⟩
        (some ⟨"", "ref1", "", ""⟩)).result = none := by
  decide

/-- C3 amended: on any failure (non-OK response or thrown error) the whole
CredentialPair is cleared in one step and no second refresh attempt is made
within that call (at most one refresh request per execution); the invariant
"access token absent implies refresh token absent" holds after every
refresh, provided a successful response never pairs an empty access token
with a non-empty refresh token. -/
theorem refresh_failure_clears_pair (c : Creds) (ro : Option RefreshData)
    (hwf : ∀ d, ro = some d → d.refresh_token ≠ "" → d.access_token ≠ "") :
    (c.refreshToken ≠ "" → ro = none →
      refreshAccessToken c ro = ⟨emptyCreds, none, [c.refreshToken]⟩) ∧
    (refreshAccessToken c ro).requests.length ≤ 1 ∧
    ((refreshAccessToken c ro).creds.accessToken = "" →
      (refreshAccessToken c ro).creds.refreshToken = "") := by
  refine ⟨?_, ?_, ?_⟩
  · intro hrt hro
    subst hro
    simp [refreshAccessToken, hrt]
  · by_cases h : c.refreshToken = ""
    · simp [refreshAccessToken, h]
    · cases ro <;> simp [refreshAccessToken, h]
  · by_cases h : c.refreshToken = ""
    · intro _
      have he : refreshAccessToken c ro = ⟨c, none, []⟩ := by
        simp [refreshAccessToken, h]
      rw [he]
      exact h
    · cases ro with
      | none =>
          intro _
          simp [refreshAccessToken, h, emptyCreds]
      | some d =>
          intro hacc
          have hd : (refreshAccessToken c (some d)).creds = applyRefreshData c d := by
            simp [refreshAccessToken, h]
          rw [hd] at hacc ⊢
          by_cases hrt : d.refresh_token = ""
          · simp [applyRefreshData, hrt]
          · exact absurd (by simpa [applyRefreshData] using hacc) (hwf d rfl hrt)

/-- C3 amended, witness: a failing refresh from a signed-in state clears
every credential field in one step, issues exactly one refresh request, and
re-establishes the pair invariant. -/
theorem refresh_failure_clears_pair_witness :
    (Creds.refreshToken ⟨"acc0", "ref0", "u1", "e1"⟩ ≠ "" → (none : Option RefreshData) = none →
      refreshAccessToken ⟨"acc0", "ref0", "u1", "e1"⟩ none = ⟨emptyCreds, none, ["ref0"]⟩) ∧
    (refreshAccessToken ⟨"acc0", "ref0", "u1", "e1"⟩ none).requests.length ≤ 1 ∧
    ((refreshAccessToken ⟨"acc0", "ref0", "u1", "e1"⟩ none).creds.accessToken = "" →
      (refreshAccessToken ⟨"acc0", "ref0", "u1", "e1"⟩ none).creds.refreshToken = "") :=
  refresh_failure_clears_pair ⟨"acc0", "ref0", "u1", "e1"⟩ none
    (fun d hd => by cases hd)

/-- C1: with two authorized calls in flight that both receive 401 before
either refresh response arrives, the client issues two refresh requests,
both presenting the same (single-use) refresh token — concurrent refreshes
are not de-duplicated behind a shared pending operation. -/
theorem concurrent_401_double_refresh :
    (let s0 : SharedAuth := ⟨⟨"acc", "r0", "u", "e"⟩, []⟩
     let a := onFirstResponse s0 401
     let b := onFirstResponse a.1 401
     b.1.refreshLog = ["r0", "r0"] ∧
     a.2 = CallPhase.awaitingRefresh 401 ∧
     b.2 = CallPhase.awaitingRefresh 401) := by
  decide

/-- C6: the PKCE verifier stored under a state nonce is consumed (deleted)
by the first completion callback presenting that state, which proceeds to
the token exchange with it; a second completion with the same state finds
no verifier and fails with the state-mismatch error instead of exchanging. -/
theorem oauth_state_single_use (store : KV String) (code state ver : String)
    (hcode : code ≠ "") (hstate : state ≠ "")
    (hver : store.getItem (pkceVerifierKey state) = some ver) (hv : ver ≠ "") :
    (handleOauthUrl store code state "").2 =
      some (OauthOutcome.exchange code state ver) ∧
    (handleOauthUrl store code state "").1.getItem (pkceVerifierKey state) = none ∧
    (∀ code2, code2 ≠ "" →
      (handleOauthUrl (handleOauthUrl store code state "").1 code2 state "").2 =
        some OauthOutcome.mismatch) := by
  have h1 : handleOauthUrl store code state "" =
      (store.removeItem (pkceVerifierKey state),
        some (OauthOutcome.exchange code state ver)) := by
    simp [handleOauthUrl, hcode, hstate, hver, hv]
  refine ⟨by rw [h1], ?_, fun code2 hc2 => ?_⟩
  · rw [h1]
    simp [KV.getItem, KV.removeItem]
  · rw [h1]
    have h2 : (store.removeItem (pkceVerifierKey state)).getItem
        (pkceVerifierKey state) = none := by
      simp [KV.getItem, KV.removeItem]
    simp [handleOauthUrl, hc2, hstate, h2]

/-- C6 witness: a concrete handshake followed by a replayed callback. -/
theorem oauth_state_single_use_witness :
    (handleOauthUrl (KV.empty.setItem (pkceVerifierKey "st1") "ver1")
        "c1" "st1" "").2 = some (OauthOutcome.exchange "c1" "st1" "ver1") ∧
    (handleOauthUrl (KV.empty.setItem (pkceVerifierKey "st1") "ver1")
        "c1" "st1" "").1.getItem (pkceVerifierKey "st1") = none ∧
    (∀ code2, code2 ≠ "" →
      (handleOauthUrl (handleOauthUrl (KV.empty.setItem (pkceVerifierKey "st1") "ver1")
          "c1" "st1" "").1 code2 "st1" "").2 = some OauthOutcome.mismatch) :=
  oauth_state_single_use _ "c1" "st1" "ver1" (by decide) (by decide)
    (by decide) (by decide)

/-- C7 counterexample: after the merge absorbs a server snapshot with
`remaining_turns = 0`, the spec's exhaustion predicate is true on the
stored snapshot, yet `chatLimitReached` stays false and a further send is
not refused — the client's refusal is not determined by the absorbed
counters. -/
theorem absorb_zero_turns_does_not_refuse :
    (let st1 := (sendMessage chatStExample
        (SendResponse.ok (some memZeroExample) "reply")).1
     isExhaustedSpec st1.chatMeta = true ∧
     st1.chatLimitReached = false ∧
     (sendMessage { st1 with chatInput := "again" } (SendResponse.ok none "r2")).2
       = true) := by
  decide

/-- C7 amended: the client refuses to send exactly while `chatLimitReached`
is set; a send that goes out sets it if and only if the response is HTTP
429, and absorbing any snapshot (whatever its counters) through a
successful response leaves it false. -/
theorem chat_refusal_tracks_429 (st : ChatState) (res : SendResponse)
    (hl : st.chatLimitReached = false) (hi : jsTrim st.chatInput ≠ "") :
    (sendMessage st res).2 = true ∧
    ((sendMessage st res).1.chatLimitReached = true ↔
      ∃ message, res = SendResponse.limitHit message) ∧
    (∀ t : ChatState, t.chatLimitReached = true → ∀ r, sendMessage t r = (t, false)) := by
  have hcond : ¬(jsTrim st.chatInput = "" ∨ st.chatLimitReached) := by
    simp [hi, hl]
  refine ⟨?_, ?_, fun t ht r => ?_⟩
  · unfold sendMessage
    rw [if_neg hcond]
    cases res <;> simp
  · unfold sendMessage
    rw [if_neg hcond]
    cases res with
    | ok memory assistant => cases memory <;> simp [hl]
    | gone => simp
    | limitHit message => simp
    | otherFailure => simp [hl]
  · unfold sendMessage
    rw [if_pos (Or.inr (by simp [ht]))]

/-- C7 amended, witness: a concrete send whose response absorbs a zero
remaining-turns snapshot. -/
theorem chat_refusal_tracks_429_witness :
    (sendMessage chatStExample
      (SendResponse.ok (some memZeroExample) "reply")).2 = true ∧
    ((sendMessage chatStExample
        (SendResponse.ok (some memZeroExample) "reply")).1.chatLimitReached = true ↔
      ∃ message, SendResponse.ok (some memZeroExample) "reply"
        = SendResponse.limitHit message) ∧
    (∀ t : ChatState, t.chatLimitReached = true → ∀ r, sendMessage t r = (t, false)) :=
  chat_refusal_tracks_429 chatStExample
    (SendResponse.ok (some memZeroExample) "reply") (by decide) (by decide)

/-- C10: with a refresh token present, `handleLogout` clears the stored
credentials (access token, refresh token, user id) whenever the logout
request resolves, whatever its HTTP status; if the request throws, it only
reports the error and leaves every credential field — and thus the
signed-in state — unchanged. -/
theorem logout_clears_only_on_response (st : AccountState) (out : NetResult)
    (hrt : st.authRefreshToken ≠ "") :
    (∀ message, out = NetResult.threw message →
      handleLogout st out = { st with authError := message, authNotice := "" }) ∧
    (∀ status, out = NetResult.resolved status →
      (handleLogout st out).authToken = "" ∧
      (handleLogout st out).authRefreshToken = "" ∧
      (handleLogout st out).authUserId = "" ∧
      (handleLogout st out).authNotice = "Logged out.") := by
  constructor
  · rintro message rfl
    simp [handleLogout, hrt]
  · rintro status rfl
    simp [handleLogout, hrt, clearSignInFields]

/-- C10 witness: a signed-in account whose logout request throws. -/
theorem logout_clears_only_on_response_witness :
    (∀ message, NetResult.threw "offline" = NetResult.threw message →
      handleLogout accountStExample (NetResult.threw "offline") =
        { accountStExample with authError := message, authNotice := "" }) ∧
    (∀ status, NetResult.threw "offline" = NetResult.resolved status →
      (handleLogout accountStExample (NetResult.threw "offline")).authToken = "" ∧
      (handleLogout accountStExample (NetResult.threw "offline")).authRefreshToken = "" ∧
      (handleLogout accountStExample (NetResult.threw "offline")).authUserId = "" ∧
      (handleLogout accountStExample (NetResult.threw "offline")).authNotice
        = "Logged out.") :=
  logout_clears_only_on_response accountStExample (NetResult.threw "offline")
    (by decide)


/-! ## Theorems: cache claims -/

/-- C4: for any sequence of cache put and get operations from the empty
state, the chapter cache's index holds at most 200 keys, without
duplicates; a stored entry exists exactly when its key holds an index slot
(so eviction removes the least-recently-touched entry and its slot
together); and the index is exactly the at-most-200 most-recently-touched
keys, in recency order. -/
theorem cache_lru_bound (ops : List CacheOp) :
    (runCacheOps emptyCacheState ops).1.index.length ≤ MAX_CACHE_CHAPTERS ∧
    (runCacheOps emptyCacheState ops).1.index.Nodup ∧
    (∀ k, ((runCacheOps emptyCacheState ops).1.store.getItem k).isSome ↔
      k ∈ (runCacheOps emptyCacheState ops).1.index) ∧
    (runCacheOps emptyCacheState ops).1.index =
      takeLast MAX_CACHE_CHAPTERS
        (dedupLast (runCacheOps emptyCacheState ops).2) := by
  have hinv0 : CacheInv emptyCacheState [] := by
    refine ⟨rfl, by simp, fun j => ?_⟩
    simp [emptyCacheState, KV.empty, KV.getItem]
  obtain ⟨hidx, hkeys, hmem⟩ := runCacheOps_inv ops emptyCacheState [] hinv0
  rw [List.nil_append] at hidx
  refine ⟨?_, ?_, hmem, hidx⟩
  · rw [hidx, length_takeLast]
    omega
  · rw [hidx]
    exact (nodup_dedupLast _).sublist (takeLast_sublist _ _)

theorem runCacheOps_preserves_key (ops : List CacheOp) :
    ∀ (st : CacheState) (k : String),
      (∀ v b c p n, CacheOp.put v b c p n ∈ ops → cacheKey v b c ≠ k) →
      (runCacheOps st ops).1.store.getItem k = st.store.getItem k ∨
        (runCacheOps st ops).1.store.getItem k = none := by
  induction ops with
  | nil =>
      intro st k _
      left
      rfl
  | cons op ops ih =>
      intro st k hnp
      have hnp2 : ∀ v b c p n, CacheOp.put v b c p n ∈ ops →
          cacheKey v b c ≠ k :=
        fun v b c p n hm => hnp v b c p n (List.mem_cons_of_mem _ hm)
      cases op with
      | put v b c payload now =>
          have hkey : cacheKey v b c ≠ k :=
            hnp v b c payload now (List.mem_cons_self _ _)
          have hstep : (setCachedChapter st v b c payload now).store.getItem k =
              st.store.getItem k ∨
              (setCachedChapter st v b c payload now).store.getItem k = none := by
            have hform : setCachedChapter st v b c payload now =
                touchCacheKey
                  ⟨st.index, st.store.setItem (cacheKey v b c)
                    (StoredValue.record ⟨payload, now⟩)⟩ (cacheKey v b c) := rfl
            have hset : ((st.store.setItem (cacheKey v b c)
                (StoredValue.record ⟨payload, now⟩)).getItem k) =
                st.store.getItem k :=
              getItem_setItem_ne _ _ _ _ (Ne.symm hkey)
            rw [hform]
            rcases getItem_touch_or
                ⟨st.index, st.store.setItem (cacheKey v b c)
                  (StoredValue.record ⟨payload, now⟩)⟩ (cacheKey v b c) k with
              h | h
            · left
              rw [h]
              exact hset
            · right
              exact h
          have hfirst : (runCacheOps st (CacheOp.put v b c payload now :: ops)).1 =
              (runCacheOps (setCachedChapter st v b c payload now) ops).1 := rfl
          rcases ih (setCachedChapter st v b c payload now) k hnp2 with h2 | h2
          · rcases hstep with h1 | h1
            · left
              rw [hfirst, h2, h1]
            · right
              rw [hfirst, h2, h1]
          · right
            rw [hfirst, h2]
      | get v b c =>
          have hstep : (getCachedChapter st v b c).1.store.getItem k =
              st.store.getItem k ∨
              (getCachedChapter st v b c).1.store.getItem k = none := by
            rcases hG : st.store.getItem (cacheKey v b c) with _ | sv
            · left
              rw [show (getCachedChapter st v b c).1 = st from by
                simp [getCachedChapter, hG]]
            · cases sv with
              | record rec =>
                  rw [show (getCachedChapter st v b c).1 =
                      touchCacheKey st (cacheKey v b c) from by
                    simp [getCachedChapter, hG]]
                  exact getItem_touch_or st (cacheKey v b c) k
              | corrupt raw =>
                  left
                  rw [show (getCachedChapter st v b c).1 = st from by
                    simp [getCachedChapter, hG]]
          have hfirst : (runCacheOps st (CacheOp.get v b c :: ops)).1 =
              (runCacheOps (getCachedChapter st v b c).1 ops).1 := rfl
          rcases ih (getCachedChapter st v b c).1 k hnp2 with h2 | h2
          · rcases hstep with h1 | h1
            · left
              rw [hfirst, h2, h1]
            · right
              rw [hfirst, h2, h1]
          · right
            rw [hfirst, h2]

/-- C9: a `get` performed after a `put` of key `(v,b,c)` returns the put
payload unchanged (stamped with the put's `cached_at`), for any operation
sequence in between that contains no `put` to the same key, as long as the
entry is still present — i.e. the key has not been evicted by the LRU
bound. -/
theorem get_after_put_returns_payload (init : CacheState) (v : String)
    (b c : Nat) (payload : ChapterPayload) (now : String) (ops : List CacheOp)
    (hnp : ∀ v2 b2 c2 p2 n2, CacheOp.put v2 b2 c2 p2 n2 ∈ ops →
      cacheKey v2 b2 c2 ≠ cacheKey v b c)
    (hlive : ((runCacheOps (setCachedChapter init v b c payload now) ops).1.store.getItem
      (cacheKey v b c)).isSome) :
    (runCacheOps (setCachedChapter init v b c payload now) ops).1.store.getItem
        (cacheKey v b c) = some (StoredValue.record ⟨payload, now⟩) ∧
    (getCachedChapter
        (runCacheOps (setCachedChapter init v b c payload now) ops).1 v b c).2 =
      some ⟨payload, now⟩ := by
  rcases runCacheOps_preserves_key ops (setCachedChapter init v b c payload now)
      (cacheKey v b c) hnp with h | h
  · have hv : (runCacheOps (setCachedChapter init v b c payload now) ops).1.store.getItem
        (cacheKey v b c) = some (StoredValue.record ⟨payload, now⟩) := by
      rw [h]
      exact setCachedChapter_getItem_self init v b c payload now
    refine ⟨hv, ?_⟩
    simp [getCachedChapter, hv]
  · rw [h] at hlive
    simp at hlive

/-- C9 witness: a put of `(krv,1,1)` followed by two reads (one of them a
miss on another key) still yields the original payload. -/
theorem get_after_put_returns_payload_witness :
    (runCacheOps (setCachedChapter emptyCacheState "krv" 1 1
        chapterPayloadExample "t0") getOpsExample).1.store.getItem
        (cacheKey "krv" 1 1) =
      some (StoredValue.record ⟨chapterPayloadExample, "t0"⟩) ∧
    (getCachedChapter
        (runCacheOps (setCachedChapter emptyCacheState "krv" 1 1
          chapterPayloadExample "t0") getOpsExample).1 "krv" 1 1).2 =
      some ⟨chapterPayloadExample, "t0"⟩ :=
  get_after_put_returns_payload emptyCacheState "krv" 1 1
    chapterPayloadExample "t0" getOpsExample
    (by
      intro v2 b2 c2 p2 n2 hm
      simp [getOpsExample] at hm)
    (by decide)

/-- C5: on a successful fetch for a chapter whose cached record carries a
(truthy) content hash, a differing fresh hash makes the display show the
fresh content, replaces the cache entry with it, and emits the updated
notice exactly once; an equal hash emits no notice. -/
theorem loadChapter_hash_notice (st : CacheState) (v : String) (b c : Nat)
    (data : ChapterPayload) (now : String) (r : ChapterRecord)
    (hc : (getCachedChapter st v b c).2 = some r)
    (hh : r.payload.content_hash ≠ "") :
    (r.payload.content_hash ≠ data.content_hash →
      (loadChapter st v b c (Except.ok data) now).displayed =
        Displayed.fresh data ∧
      (loadChapter st v b c (Except.ok data) now).cache.store.getItem
        (cacheKey v b c) = some (StoredValue.record ⟨data, now⟩) ∧
      (loadChapter st v b c (Except.ok data) now).notice = UPDATED_NOTICE ∧
      (loadChapter st v b c (Except.ok data) now).updatedCount = 1) ∧
    (r.payload.content_hash = data.content_hash →
      (loadChapter st v b c (Except.ok data) now).notice = "" ∧
      (loadChapter st v b c (Except.ok data) now).updatedCount = 0) := by
  have hdisp : (loadChapter st v b c (Except.ok data) now).displayed =
      Displayed.fresh data := by
    simp [loadChapter]
  have hcache : (loadChapter st v b c (Except.ok data) now).cache =
      setCachedChapter (getCachedChapter st v b c).1 v b c data now := by
    simp [loadChapter]
  have hnot : (loadChapter st v b c (Except.ok data) now).notice =
      if (r.payload.content_hash != "" &&
          r.payload.content_hash != data.content_hash) then UPDATED_NOTICE
      else "" := by
    simp [loadChapter, hc]
  have hcnt : (loadChapter st v b c (Except.ok data) now).updatedCount =
      if (r.payload.content_hash != "" &&
          r.payload.content_hash != data.content_hash) then 1 else 0 := by
    simp [loadChapter, hc]
  constructor
  · intro hne
    have hdiff : (r.payload.content_hash != "" &&
        r.payload.content_hash != data.content_hash) = true := by
      simp [hh, hne]
    refine ⟨hdisp, ?_, ?_, ?_⟩
    · rw [hcache]
      exact setCachedChapter_getItem_self _ _ _ _ _ _
    · rw [hnot, hdiff]
      rfl
    · rw [hcnt, hdiff]
      rfl
  · intro heq
    have hdiff : (r.payload.content_hash != "" &&
        r.payload.content_hash != data.content_hash) = false := by
      simp [heq]
    constructor
    · rw [hnot, hdiff]
      rfl
    · rw [hcnt, hdiff]
      rfl

/-- C5 witness: cached hash "abc" against fresh hash "def" on a concrete
cache state. -/
theorem loadChapter_hash_notice_witness :
    (cachedRecordExample.payload.content_hash ≠ freshPayloadExample.content_hash →
      (loadChapter cacheStExample "krv" 1 1 (Except.ok freshPayloadExample)
        "t1").displayed = Displayed.fresh freshPayloadExample ∧
      (loadChapter cacheStExample "krv" 1 1 (Except.ok freshPayloadExample)
        "t1").cache.store.getItem (cacheKey "krv" 1 1) =
        some (StoredValue.record ⟨freshPayloadExample, "t1"⟩) ∧
      (loadChapter cacheStExample "krv" 1 1 (Except.ok freshPayloadExample)
        "t1").notice = UPDATED_NOTICE ∧
      (loadChapter cacheStExample "krv" 1 1 (Except.ok freshPayloadExample)
        "t1").updatedCount = 1) ∧
    (cachedRecordExample.payload.content_hash = freshPayloadExample.content_hash →
      (loadChapter cacheStExample "krv" 1 1 (Except.ok freshPayloadExample)
        "t1").notice = "" ∧
      (loadChapter cacheStExample "krv" 1 1 (Except.ok freshPayloadExample)
        "t1").updatedCount = 0) :=
  loadChapter_hash_notice cacheStExample "krv" 1 1 freshPayloadExample "t1"
    cachedRecordExample (by decide) (by decide)

/-- C8 counterexample: looking up a chapter whose persisted record fails
to parse returns a miss, but the unparseable record and its recency-index
slot are both retained — the slot is not dropped. -/
theorem corrupt_slot_retained :
    (getCachedChapter corruptStExample "krv" 1 1).2 = none ∧
    (getCachedChapter corruptStExample "krv" 1 1).1.index =
      [cacheKey "krv" 1 1] ∧
    (getCachedChapter corruptStExample "krv" 1 1).1.store.getItem
      (cacheKey "krv" 1 1) = some (StoredValue.corrupt "not json") := by
  decide

/-- C8 amended: a persisted chapter record that fails to parse is treated
as a cache miss (the lookup returns null rather than raising), and the
cache state is left entirely unchanged: the unparseable record and its
recency-index slot are retained, removed only later by an overwrite or by
LRU eviction. -/
theorem corrupt_record_is_miss (st : CacheState) (v : String) (b c : Nat)
    (raw : String)
    (h : st.store.getItem (cacheKey v b c) = some (StoredValue.corrupt raw)) :
    (getCachedChapter st v b c).2 = none ∧
    (getCachedChapter st v b c).1 = st := by
  simp [getCachedChapter, h]

/-- C8 amended, witness: the concrete corrupt cache state. -/
theorem corrupt_record_is_miss_witness :
    (getCachedChapter corruptStExample "krv" 1 1).2 = none ∧
    (getCachedChapter corruptStExample "krv" 1 1).1 = corruptStExample :=
  corrupt_record_is_miss corruptStExample "krv" 1 1 "not json" (by decide)

end TheBibleAI
